import Mathlib

/-!
Verification of the Billing_System record-store core (dataset.py,
file_lock.py, invoice_number.py, audit_log.py, services/case_service.py)
against its natural-language specification.

A firm's table is modelled as a `Sheet`: the header row plus the data
rows, each row a list of cells aligned with the headers, exactly as
openpyxl presents a worksheet (`values_only=True`).  Cells are
`Cell.none` (Python `None`), `Cell.str` or `Cell.num`; the numeric
formatting of `Cell.num` under Python `str()` is a stand-in (no proved
statement compares the string form of a numeric cell).  Date-typed
cells produced by openpyxl are not modelled: every operation proved
about supplies the key fields as strings, as the CLI and GUI callers
do.  Filesystem plumbing (paths, workbook existence, the sheet-name
check) is outside the model; functions operate on the in-memory
`Sheet`, mirroring the load -> transform -> save structure of the
source.
-/

-- ── Python-semantics helpers ──────────────────────────────────────────

/-- One worksheet cell: Python `None`, a string, or an int/float value
(modelled as a rational; `float` rounding is irrelevant to every
statement proved here, which only compares parsed values for equality). -/
inductive Cell where
  | none
  | str (s : String)
  | num (q : Rat)
deriving DecidableEq, Repr

/-- Python `str(x)` on a cell.  `str(None) = "None"`.  For numeric cells
the rendering is a stand-in for CPython float formatting; no proved
statement stringifies a numeric cell. -/
def cellToPyStr : Cell → String
  | Cell.none => "None"
  | Cell.str s => s
  | Cell.num q => toString q

/-- Python truthiness of a cell: `None`, the empty string and zero are falsy. -/
def cellTruthy : Cell → Bool
  | Cell.none => false
  | Cell.str s => !(s == "")
  | Cell.num q => !(q == 0)

/-- Python `str(x or "")`: the empty string when the cell is falsy. -/
def pyOrEmptyStr (c : Cell) : String :=
  if cellTruthy c then cellToPyStr c else ""

/-- ASCII whitespace test covering the characters Python `str.strip`
removes on the inputs that occur here. -/
def isPySpace (c : Char) : Bool :=
  c == ' ' || c == '\t' || c == '\n' || c == '\r'

/-- Python `str.strip()` (ASCII whitespace). -/
def pyStrip (s : String) : String :=
  String.mk (((s.toList.dropWhile isPySpace).reverse.dropWhile isPySpace).reverse)

/-- Python `str.lower()` (ASCII case folding, which covers every input here). -/
def pyLower (s : String) : String :=
  String.mk (s.toList.map Char.toLower)

def allDigits (cs : List Char) : Bool := cs.all Char.isDigit

def digitsVal (cs : List Char) : Nat :=
  cs.foldl (fun a c => a * 10 + (c.toNat - 48)) 0

def isLeapYear (y : Nat) : Bool :=
  (y % 4 == 0 && !(y % 100 == 0)) || y % 400 == 0

def daysInMonth (y m : Nat) : Nat :=
  if m == 2 then (if isLeapYear y then 29 else 28)
  else if m == 4 || m == 6 || m == 9 || m == 11 then 30
  else 31

/-- Split a character list on a separator (the semantics of Python
`str.split(sep)`: empty pieces are kept, the empty string gives one
empty piece). -/
def splitOnChar (sep : Char) : List Char → List (List Char)
  | [] => [[]]
  | c :: rest =>
    match splitOnChar sep rest with
    | [] => [[c]]
    | h :: t => if c == sep then [] :: h :: t else (c :: h) :: t

/-- `datetime.strptime(s, "%Y-%m-%d")` succeeds: a 4-digit year, a 1-2
digit month in 1..12, a 1-2 digit day valid for that month (CPython's
`%m`/`%d` accept unpadded single digits), and a positive year. -/
def isYYYYMMDD (s : String) : Bool :=
  match splitOnChar '-' s.toList with
  | [yl, ml, dl] =>
    allDigits yl && allDigits ml && allDigits dl &&
    yl.length == 4 && decide (1 ≤ digitsVal yl) &&
    decide (1 ≤ ml.length) && decide (ml.length ≤ 2) &&
    decide (1 ≤ digitsVal ml) && decide (digitsVal ml ≤ 12) &&
    decide (1 ≤ dl.length) && decide (dl.length ≤ 2) &&
    decide (1 ≤ digitsVal dl) &&
    decide (digitsVal dl ≤ daysInMonth (digitsVal yl) (digitsVal ml))
  | _ => false

/-- The unsigned part of Python `float(s)`: digits with at most one
decimal point, at least one digit overall. -/
def pyFloatCore (cs : List Char) : Option Rat :=
  match splitOnChar '.' cs with
  | [il] =>
    if !il.isEmpty && allDigits il then some ((digitsVal il : Rat)) else Option.none
  | [il, fl] =>
    if (!il.isEmpty || !fl.isEmpty) && allDigits il && allDigits fl then
      some ((digitsVal il : Rat) + (digitsVal fl : Rat) / ((10 : Rat) ^ fl.length))
    else Option.none
  | _ => Option.none

/-- Python `float(s)` on the plain decimal grammar (optional sign,
digits with at most one decimal point, surrounding whitespace).
Exponents, `inf`/`nan` and digit underscores are not modelled; no
proved statement feeds them in. -/
def pyFloat? (s : String) : Option Rat :=
  match (pyStrip s).toList with
  | '-' :: rest => (pyFloatCore rest).map (fun q => -q)
  | '+' :: rest => pyFloatCore rest
  | cs => pyFloatCore cs

-- ── Schema (dataset.py) ───────────────────────────────────────────────

def COLUMNS : List String :=
  ["appearance_date", "invoice_number", "index_number", "case_caption",
   "court", "outcome", "case_status", "charge_amount",
   "invoice_sent_date", "paid_status", "payment_date", "notes"]

def REQUIRED_COLUMNS : List String :=
  ["case_caption", "index_number", "appearance_date", "charge_amount"]

def VALID_CASE_STATUSES : List String :=
  ["Open", "Adjourned", "Closed", "Settled", "Dismissed"]

def VALID_PAID_STATUSES : List String :=
  ["Paid", "Unpaid", "Partial"]

-- ── Sheet model ───────────────────────────────────────────────────────

/-- A firm's worksheet: the header row and the data rows (Excel rows 2..). -/
structure Sheet where
  headers : List String
  rows : List (List Cell)
deriving DecidableEq, Repr

/-- Python `list.index` as an option (`None` replaces the `ValueError`). -/
def pyIndex (l : List String) (c : String) : Option Nat :=
  match l with
  | [] => Option.none
  | h :: t => if h = c then some 0 else (pyIndex t c).map (· + 1)

/-- Python dict lookup on an association list (keys are unique in every
dict the source builds; theorems carry a `Nodup` hypothesis where the
update order could otherwise matter). -/
def lookupCell : List (String × Cell) → String → Option Cell
  | [], _ => Option.none
  | (k, v) :: t, c => if k = c then some v else lookupCell t c

/-- `row_dict.get(col)` with default `None`. -/
def dictGetCell (d : List (String × Cell)) (k : String) : Cell :=
  (lookupCell d k).getD Cell.none

/-- `str(row_dict.get(col, ""))`. -/
def dictGetStr (d : List (String × Cell)) (k : String) : String :=
  match lookupCell d k with
  | some c => cellToPyStr c
  | Option.none => ""

/-- `row[i]` on an openpyxl values tuple; cells beyond the row are `None`. -/
def rowCell (r : List Cell) (i : Nat) : Cell := r.getD i Cell.none

/-- `all(v is None for v in row)`. -/
def isBlankRow (r : List Cell) : Bool := r.all (fun c => c == Cell.none)

-- ── Lookup and upsert (dataset.py) ────────────────────────────────────

/-- `load_dataset`: the non-blank rows, each as the dict
`dict(zip(headers, row))` (Python `zip` truncates to the shorter side). -/
def load_dataset (s : Sheet) : List (List (String × Cell)) :=
  (s.rows.filter (fun r => !isBlankRow r)).map (fun r => s.headers.zip r)

/-- `find_row_by_key`: first non-blank row whose index number matches
case-insensitively after stripping and whose appearance date matches by
string. -/
def find_row_by_key (s : Sheet) (index_number appearance_date : String) :
    Option (List (String × Cell)) :=
  let ti := pyLower (pyStrip index_number)
  let td := appearance_date
  (load_dataset s).find? (fun row =>
    pyLower (pyStrip (dictGetStr row "index_number")) == ti &&
    dictGetStr row "appearance_date" == td)

/-- The row predicate of `_match_key`: `str(row[idx_col] or "")` stripped
and lowered against the target index, `str(row[date_col] or "")` against
the target date. -/
def rowMatchesKey (ic dc : Nat) (ti td : String) (r : List Cell) : Bool :=
  pyLower (pyStrip (pyOrEmptyStr (rowCell r ic))) == ti &&
  pyOrEmptyStr (rowCell r dc) == td

/-- Position of the first row satisfying the predicate. -/
def findIdxFrom (p : List Cell → Bool) : List (List Cell) → Option Nat
  | [] => Option.none
  | r :: rest => if p r then some 0 else (findIdxFrom p rest).map (· + 1)

/-- `_match_key`, returning the 0-based position into `rows` (the source
returns the Excel row number, this position plus 2; the offset cancels
when `upsert_row` addresses the matched row).  The outer `Option.none`
stands for the `ValueError` Python raises when a key column is missing
from the header. -/
def _match_key (s : Sheet) (index_number appearance_date : String) :
    Option (Option Nat) :=
  match pyIndex s.headers "index_number", pyIndex s.headers "appearance_date" with
  | some ic, some dc =>
      some (findIdxFrom
        (rowMatchesKey ic dc (pyLower (pyStrip index_number)) appearance_date)
        s.rows)
  | _, _ => Option.none

inductive UpsertAction where
  | inserted
  | updated
deriving DecidableEq, Repr

/-- `[row_data.get(col) for col in headers]`. -/
def newRowFromData (headers : List String) (d : List (String × Cell)) : List Cell :=
  headers.map (fun c => dictGetCell d c)

/-- The update branch of `upsert_row`: for each supplied key/value pair
whose key is a header column, overwrite that cell of the matched row. -/
def updateRowCells (headers : List String) (r : List Cell)
    (d : List (String × Cell)) : List Cell :=
  d.foldl (fun acc kv =>
    match pyIndex headers kv.1 with
    | some i => acc.set i kv.2
    | Option.none => acc) r

/-- `upsert_row`: match by the composite key; update the matched row
in place, overwriting only the supplied fields, or append a new row
whose unsupplied cells are `None`.  `Option.none` models the
`ValueError` on a malformed header. -/
def upsert_row (s : Sheet) (d : List (String × Cell)) :
    Option (UpsertAction × Sheet) :=
  let idx_num := dictGetStr d "index_number"
  let app_date := dictGetStr d "appearance_date"
  (_match_key s idx_num app_date).map (fun found =>
    match found with
    | some i =>
        (UpsertAction.updated,
         { headers := s.headers,
           rows := s.rows.set i (updateRowCells s.headers (s.rows.getD i []) d) })
    | Option.none =>
        (UpsertAction.inserted,
         { headers := s.headers, rows := s.rows ++ [newRowFromData s.headers d] }))

-- ── Validation (dataset.py validate_dataset) ──────────────────────────

/-- One validation error, carrying the same data as the source's message
strings (`Row N: ...`); row numbers are Excel row numbers, starting at 2. -/
inductive VErr where
  | missingColumns (cols : List String)
  | missingRequired (rowNum : Nat) (col : String)
  | badDate (rowNum : Nat) (val : String)
  | badAmount (rowNum : Nat) (val : String)
  | badCaseStatus (rowNum : Nat) (val : String)
  | badPaidStatus (rowNum : Nat) (val : String)
  | duplicateKey (rowNum : Nat) (key : String × String)
deriving DecidableEq, Repr

/-- Required fields non-null and non-blank. -/
def requiredErrors (n : Nat) (row : List (String × Cell)) : List VErr :=
  REQUIRED_COLUMNS.filterMap (fun c =>
    match lookupCell row c with
    | Option.none => some (VErr.missingRequired n c)
    | some Cell.none => some (VErr.missingRequired n c)
    | some v =>
        if pyStrip (cellToPyStr v) == "" then some (VErr.missingRequired n c)
        else Option.none)

/-- `appearance_date` parses as `YYYY-MM-DD` when it is a string; date
and datetime cells pass, and a cell of any other type is not checked
(the source has no `else` branch). -/
def dateErrors (n : Nat) (row : List (String × Cell)) : List VErr :=
  match dictGetCell row "appearance_date" with
  | Cell.str s => if isYYYYMMDD s then [] else [VErr.badDate n s]
  | _ => []

/-- `charge_amount` is an int/float or parses via `float(...)`. -/
def amountErrors (n : Nat) (row : List (String × Cell)) : List VErr :=
  match dictGetCell row "charge_amount" with
  | Cell.str s =>
      match pyFloat? s with
      | some _ => []
      | Option.none => [VErr.badAmount n s]
  | _ => []

/-- `case_status`, when present and non-blank after stripping, must be a
valid status. -/
def caseStatusErrors (n : Nat) (row : List (String × Cell)) : List VErr :=
  match dictGetCell row "case_status" with
  | Cell.none => []
  | c =>
      let v := pyStrip (cellToPyStr c)
      if v == "" then []
      else if VALID_CASE_STATUSES.contains v then []
      else [VErr.badCaseStatus n (cellToPyStr c)]

/-- `paid_status`, when present and non-blank after stripping, must be a
valid paid status. -/
def paidStatusErrors (n : Nat) (row : List (String × Cell)) : List VErr :=
  match dictGetCell row "paid_status" with
  | Cell.none => []
  | c =>
      let v := pyStrip (cellToPyStr c)
      if v == "" then []
      else if VALID_PAID_STATUSES.contains v then []
      else [VErr.badPaidStatus n (cellToPyStr c)]

/-- The composite key a row contributes to the duplicate check:
`(str(get("index_number","")).strip().lower(), str(get("appearance_date","")))`. -/
def rowKey (row : List (String × Cell)) : String × String :=
  (pyLower (pyStrip (dictGetStr row "index_number")),
   dictGetStr row "appearance_date")

/-- The five per-row rules of `validate_dataset`, in source order. -/
def rowRuleErrors (n : Nat) (row : List (String × Cell)) : List VErr :=
  requiredErrors n row ++ dateErrors n row ++ amountErrors n row ++
  caseStatusErrors n row ++ paidStatusErrors n row

/-- The row loop of `validate_dataset`: blank rows are skipped (but still
numbered), every other row contributes its rule errors followed by a
duplicate-key error when its key was already seen, and its key is added
to the seen set. -/
def validateRows (headers : List String) :
    Nat → List (String × String) → List (List Cell) → List VErr
  | _, _, [] => []
  | n, seen, r :: rest =>
      if isBlankRow r then validateRows headers (n + 1) seen rest
      else
        let row := headers.zip r
        let key := rowKey row
        rowRuleErrors n row ++
        (if seen.contains key then [VErr.duplicateKey n key] else []) ++
        validateRows headers (n + 1) (key :: seen) rest

/-- `validate_dataset` on an in-memory sheet: if any of the twelve
schema columns is missing from the header, a single missing-columns
error and no row checks; otherwise the collected row errors. -/
def validate_dataset (s : Sheet) : List VErr :=
  let missing := COLUMNS.filter (fun c => !(s.headers.contains c))
  if missing.isEmpty then validateRows s.headers 2 [] s.rows
  else [VErr.missingColumns missing]

-- ── Audit log (audit_log.py) ──────────────────────────────────────────

/-- One audit row.  The timestamp, user and hostname columns are
environment lookups (`datetime.now`, `os.getlogin`, `socket.gethostname`)
and are not modelled; the remaining columns are carried exactly. -/
structure AuditEntry where
  action : String
  firm : String
  case_key : String
  field_name : String
  old_value : String
  new_value : String
  reason : String
deriving DecidableEq, Repr

/-- `str(v) if v is not None else ""`. -/
def auditValueStr : Cell → String
  | Cell.none => ""
  | c => cellToPyStr c

/-- `append_audit`: append one row to the shared log (header creation is
file plumbing, outside the model). -/
def append_audit (log : List AuditEntry)
    (firm index_number appearance_date action field_name : String)
    (old_value new_value : Cell) (reason : Option String) : List AuditEntry :=
  log ++ [{ action := action,
            firm := firm,
            case_key := index_number ++ "|" ++ appearance_date,
            field_name := field_name,
            old_value := auditValueStr old_value,
            new_value := auditValueStr new_value,
            reason := reason.getD "" }]

-- ── Field editing (services/case_service.py edit_case_field) ──────────

def EDITABLE_FIELDS : List (String × String) :=
  [("charge_amount", "EDIT_CHARGE"), ("court", "EDIT_COURT"),
   ("outcome", "EDIT_OUTCOME"), ("case_status", "EDIT_STATUS"),
   ("notes", "EDIT_NOTES")]

def editActionOf (field_name : String) : Option String :=
  (EDITABLE_FIELDS.find? (fun kv => kv.1 == field_name)).map (fun kv => kv.2)

/-- The outcome `edit_case_field` reports through its `ServiceResult`:
the failure taxonomy, or success with the old and coerced new value. -/
inductive EditOutcome where
  | firmNotFound
  | fieldNotEditable
  | caseNotFound
  | reasonRequired
  | invalidChargeAmount
  | invalidCaseStatus
  | ok (oldValue newValue : Cell)
deriving DecidableEq, Repr

/-- Python `not reason` for an optional string. -/
def pyFalsyReason : Option String → Bool
  | Option.none => true
  | some r => r == ""

/-- `edit_case_field` on an in-memory state (the firm's sheet plus the
shared audit log), following the source's order of checks: firm
membership, editable-field allow-list, row lookup, the reason gate for
charge edits after the invoice was sent, type coercion, then the upsert
followed by exactly one audit append.  The outer `Option.none` models
the uncaught `ValueError` were the sheet's header malformed. -/
def edit_case_field (knownFirms : List String) (sheet : Sheet)
    (audit : List AuditEntry)
    (firm index_number appearance_date field_name new_value : String)
    (reason : Option String) :
    Option (EditOutcome × Sheet × List AuditEntry) :=
  if !(knownFirms.contains firm) then some (EditOutcome.firmNotFound, sheet, audit)
  else
    match editActionOf field_name with
    | Option.none => some (EditOutcome.fieldNotEditable, sheet, audit)
    | some action =>
      match find_row_by_key sheet index_number appearance_date with
      | Option.none => some (EditOutcome.caseNotFound, sheet, audit)
      | some row =>
        let invoiceSent := dictGetCell row "invoice_sent_date"
        if field_name == "charge_amount" && !(invoiceSent == Cell.none) &&
            !(pyStrip (cellToPyStr invoiceSent) == "") && pyFalsyReason reason then
          some (EditOutcome.reasonRequired, sheet, audit)
        else
          let oldValue := dictGetCell row field_name
          let commit : Cell → Option (EditOutcome × Sheet × List AuditEntry) :=
            fun coerced =>
              (upsert_row sheet
                [("index_number", Cell.str index_number),
                 ("appearance_date", Cell.str appearance_date),
                 (field_name, coerced)]).map (fun res =>
                (EditOutcome.ok oldValue coerced, res.2,
                 append_audit audit firm index_number appearance_date action
                   field_name oldValue coerced reason))
          if field_name == "charge_amount" then
            match pyFloat? new_value with
            | Option.none => some (EditOutcome.invalidChargeAmount, sheet, audit)
            | some q => commit (Cell.num q)
          else if field_name == "case_status" then
            if !(VALID_CASE_STATUSES.contains new_value) then
              some (EditOutcome.invalidCaseStatus, sheet, audit)
            else commit (Cell.str new_value)
          else commit (Cell.str new_value)

-- ── Invoice numbering (invoice_number.py) ─────────────────────────────

/-- The persisted per-firm counter file `invoice_counter.json`. -/
structure Counter where
  year : Int
  last_number : Int
deriving DecidableEq, Repr

/-- `_load_counter`: the stored counter, or the default for the current
year with `last_number = 0` when no file exists. -/
def _load_counter (stored : Option Counter) (todayYear : Int) : Counter :=
  stored.getD { year := todayYear, last_number := 0 }

/-- The counter transition of `next_invoice_number`: optional yearly
reset, then increment (the save is the returned value). -/
def nextCounter (yearly_reset : Bool) (todayYear : Int)
    (stored : Option Counter) : Counter :=
  let c := _load_counter stored todayYear
  let c := if yearly_reset && !(c.year == todayYear) then
             { year := todayYear, last_number := 0 }
           else c
  { c with last_number := c.last_number + 1 }

/-- Left zero-padding to a minimum width. -/
def zpad (w : Nat) (s : String) : String :=
  if s.length < w then String.mk (List.replicate (w - s.length) '0') ++ s else s

/-- Python `format(n, "03d")`. -/
def pyFormat03d (n : Int) : String :=
  if n < 0 then "-" ++ zpad 2 (toString (-n)) else zpad 3 (toString n)

/-- The default invoice format from config: initials, then the counter
year, then the zero-padded sequence number. -/
def formatInvoice (initials : String) (year number : Int) : String :=
  initials ++ toString year ++ pyFormat03d number

/-- `next_invoice_number`: load (or default) the counter, reset it when
yearly reset is on and the stored year differs from the current year,
increment, persist, and format from the persisted counter's fields. -/
def next_invoice_number (initials : String) (yearly_reset : Bool)
    (todayYear : Int) (stored : Option Counter) : String × Counter :=
  let c := nextCounter yearly_reset todayYear stored
  (formatInvoice initials c.year c.last_number, c)

/-- The sequence numbers produced by `n` successive calls to
`next_invoice_number` for one firm, each call reading the counter the
previous call persisted. -/
def seqNumbers (yearly_reset : Bool) (todayYear : Int) :
    Option Counter → Nat → List Int
  | _, 0 => []
  | stored, Nat.succ n =>
      let c := nextCounter yearly_reset todayYear stored
      c.last_number :: seqNumbers yearly_reset todayYear (some c) n

-- ── The firm lock (file_lock.py FirmFileLock) ─────────────────────────

/-- Where a process is in the `FirmFileLock` context manager. -/
inductive LockPhase where
  | idle
  | acquiring
  | holding
  | released
  | timedOut
deriving DecidableEq, Repr

/-- Two processes contending for one firm's lock.  `holder` is the
OS-level exclusive flock state of the sentinel file: held by at most
one file descriptor at a time, which is the primitive
`fcntl.flock(LOCK_EX | LOCK_NB)` provides. -/
structure LockSys where
  holder : Option Bool
  phaseA : LockPhase
  phaseB : LockPhase
deriving DecidableEq, Repr

def LockSys.phase (s : LockSys) (p : Bool) : LockPhase :=
  if p then s.phaseA else s.phaseB

def setPhase (s : LockSys) (p : Bool) (ph : LockPhase) : LockSys :=
  if p then { s with phaseA := ph } else { s with phaseB := ph }

/-- The transitions of `FirmFileLock.__enter__`/`__exit__`: enter the
retry loop; a non-blocking lock attempt succeeds only when the flock is
free; on failure either sleep and retry or, past the deadline, raise
`TimeoutError`; `__exit__` unlocks and closes.  Sentinel metadata writes
are diagnostic only and carry no state. -/
inductive LockStep : LockSys → LockSys → Prop where
  | start (s : LockSys) (p : Bool) :
      s.phase p = LockPhase.idle → LockStep s (setPhase s p LockPhase.acquiring)
  | acquireOk (s : LockSys) (p : Bool) :
      s.phase p = LockPhase.acquiring → s.holder = Option.none →
      LockStep s { setPhase s p LockPhase.holding with holder := some p }
  | retryAttempt (s : LockSys) (p : Bool) :
      s.phase p = LockPhase.acquiring → s.holder ≠ Option.none → LockStep s s
  | timeoutFail (s : LockSys) (p : Bool) :
      s.phase p = LockPhase.acquiring → s.holder ≠ Option.none →
      LockStep s (setPhase s p LockPhase.timedOut)
  | releaseLock (s : LockSys) (p : Bool) :
      s.phase p = LockPhase.holding →
      LockStep s { setPhase s p LockPhase.released with holder := Option.none }

/-- Both processes outside the lock, flock free. -/
def lockInit : LockSys :=
  { holder := Option.none, phaseA := LockPhase.idle, phaseB := LockPhase.idle }

def LockReachable (s : LockSys) : Prop :=
  Relation.ReflTransGen LockStep lockInit s

-- ── Well-formedness of a firm table ───────────────────────────────────

/-- A data row as produced by the record store's own writers: aligned
with the twelve canonical columns, with the two key cells stored as
strings. -/
def WFRow (r : List Cell) : Prop :=
  r.length = COLUMNS.length ∧
  (∃ a, rowCell r 2 = Cell.str a) ∧
  (∃ b, rowCell r 0 = Cell.str b)

instance : DecidablePred WFRow := fun r => by
  unfold WFRow
  have h2 : Decidable (∃ a, rowCell r 2 = Cell.str a) := by
    cases hc : rowCell r 2 with
    | str a => exact Decidable.isTrue ⟨a, rfl⟩
    | none => exact Decidable.isFalse (by rintro ⟨a, ha⟩; simp at ha)
    | num q => exact Decidable.isFalse (by rintro ⟨a, ha⟩; simp at ha)
  have h0 : Decidable (∃ b, rowCell r 0 = Cell.str b) := by
    cases hc : rowCell r 0 with
    | str b => exact Decidable.isTrue ⟨b, rfl⟩
    | none => exact Decidable.isFalse (by rintro ⟨b, hb⟩; simp at hb)
    | num q => exact Decidable.isFalse (by rintro ⟨b, hb⟩; simp at hb)
  exact instDecidableAnd

/-- Rows of a sheet matching a composite key under `_match_key`'s
predicate (used to state that a table holds exactly one row for a key). -/
def matchingRowCount (s : Sheet) (index_number appearance_date : String) : Nat :=
  match pyIndex s.headers "index_number", pyIndex s.headers "appearance_date" with
  | some ic, some dc =>
      (s.rows.filter
        (rowMatchesKey ic dc (pyLower (pyStrip index_number)) appearance_date)).length
  | _, _ => 0

-- ── Concrete data for closed statements ───────────────────────────────

/-- A freshly initialised firm table (`create_workbook`: headers only). -/
def emptySheet0 : Sheet := { headers := COLUMNS, rows := [] }

def raceRecA : List (String × Cell) :=
  [("index_number", Cell.str "IDX-1"), ("appearance_date", Cell.str "2026-01-05"),
   ("case_caption", Cell.str "Doe v Roe"), ("charge_amount", Cell.num 150)]

def raceRecB : List (String × Cell) :=
  [("index_number", Cell.str "IDX-2"), ("appearance_date", Cell.str "2026-01-06"),
   ("case_caption", Cell.str "Poe v Foe"), ("charge_amount", Cell.num 90)]

def raceRowA : List Cell :=
  [Cell.str "2026-01-05", Cell.none, Cell.str "IDX-1", Cell.str "Doe v Roe",
   Cell.none, Cell.none, Cell.none, Cell.num 150,
   Cell.none, Cell.none, Cell.none, Cell.none]

def raceRowB : List Cell :=
  [Cell.str "2026-01-06", Cell.none, Cell.str "IDX-2", Cell.str "Poe v Foe",
   Cell.none, Cell.none, Cell.none, Cell.num 90,
   Cell.none, Cell.none, Cell.none, Cell.none]

/-- Two valid rows sharing the composite key (`abc` vs `" ABC "`). -/
def dupRow1 : List Cell :=
  [Cell.str "2026-01-05", Cell.none, Cell.str "abc", Cell.str "Doe v Roe",
   Cell.none, Cell.none, Cell.none, Cell.num 150,
   Cell.none, Cell.none, Cell.none, Cell.none]

def dupRow2 : List Cell :=
  [Cell.str "2026-01-05", Cell.none, Cell.str " ABC ", Cell.str "Roe v Doe",
   Cell.none, Cell.none, Cell.none, Cell.num 10,
   Cell.none, Cell.none, Cell.none, Cell.none]

def dupSheet : Sheet := { headers := COLUMNS, rows := [dupRow1, dupRow2] }

/-- A row whose invoice has been sent (`invoice_sent_date` populated). -/
def sentRow : List Cell :=
  [Cell.str "2026-01-05", Cell.str "AL2026001", Cell.str "IDX-1",
   Cell.str "Doe v Roe", Cell.none, Cell.none, Cell.none, Cell.num 150,
   Cell.str "2026-02-01", Cell.none, Cell.none, Cell.none]

def sentSheet : Sheet := { headers := COLUMNS, rows := [sentRow] }

/-- A header missing only the non-required `notes` column, and a data
row that violates a row-level rule (blank `case_caption`). -/
def headersNoNotes : List String :=
  ["appearance_date", "invoice_number", "index_number", "case_caption",
   "court", "outcome", "case_status", "charge_amount",
   "invoice_sent_date", "paid_status", "payment_date"]

def badCaptionRow : List Cell :=
  [Cell.str "2026-01-05", Cell.none, Cell.str "IDX-1", Cell.str "",
   Cell.none, Cell.none, Cell.none, Cell.num 150,
   Cell.none, Cell.none, Cell.none]

def noNotesSheet : Sheet := { headers := headersNoNotes, rows := [badCaptionRow] }

def badCaptionRow12 : List Cell :=
  [Cell.str "2026-01-05", Cell.none, Cell.str "IDX-1", Cell.str "",
   Cell.none, Cell.none, Cell.none, Cell.num 150,
   Cell.none, Cell.none, Cell.none, Cell.none]

def badCaptionSheet : Sheet := { headers := COLUMNS, rows := [badCaptionRow12] }

/-- A reachable lock state: A holds the flock, B is in the retry loop. -/
def lockDemoState : LockSys :=
  { holder := some true, phaseA := LockPhase.holding, phaseB := LockPhase.acquiring }

-- ── Helper lemmas ─────────────────────────────────────────────────────

theorem pyIndex_getElem? {l : List String} {c : String} {p : Nat}
    (h : pyIndex l c = some p) : l[p]? = some c := by
  induction l generalizing p with
  | nil => simp [pyIndex] at h
  | cons hd t ih =>
    rw [pyIndex] at h
    by_cases hc : hd = c
    · simp [hc] at h
      subst hc h
      simp
    · simp [hc] at h
      obtain ⟨q, hq, rfl⟩ := h
      simpa using ih hq

theorem pyIndex_lt {l : List String} {c : String} {p : Nat}
    (h : pyIndex l c = some p) : p < l.length := by
  have := pyIndex_getElem? h
  exact (List.getElem?_eq_some.mp this).1

theorem pyIndex_ne {l : List String} {c k : String} {p j : Nat}
    (hc : pyIndex l c = some p) (hk : pyIndex l k = some j)
    (hne : c ≠ k) : p ≠ j := by
  intro hpj
  subst hpj
  have h1 := pyIndex_getElem? hc
  have h2 := pyIndex_getElem? hk
  rw [h1] at h2
  exact hne (Option.some.inj h2)

theorem lookupCell_eq_none {d : List (String × Cell)} {k : String}
    (h : k ∉ d.map Prod.fst) : lookupCell d k = Option.none := by
  induction d with
  | nil => rfl
  | cons kv t ih =>
    rw [lookupCell]
    simp only [List.map_cons, List.mem_cons] at h
    push_neg at h
    rw [if_neg (fun he => h.1 he.symm)]
    exact ih h.2

theorem lookupCell_zip (hs : List String) (r : List Cell) (c : String) :
    lookupCell (hs.zip r) c = (pyIndex hs c).bind (fun p => r[p]?) := by
  induction hs generalizing r with
  | nil => simp [lookupCell, pyIndex]
  | cons h t ih =>
    cases r with
    | nil =>
      rw [List.zip_nil_right]
      rw [pyIndex]
      by_cases hc : h = c
      · simp [lookupCell, hc]
      · simp only [hc, if_false]
        cases pyIndex t c <;> simp [lookupCell]
    | cons x xs =>
      rw [List.zip_cons_cons, lookupCell, pyIndex]
      by_cases hc : h = c
      · simp [hc]
      · simp only [hc, if_false, if_neg hc]
        rw [ih]
        cases pyIndex t c <;> simp

theorem updateRowCells_cons (hs : List String) (kv : String × Cell)
    (t : List (String × Cell)) (r : List Cell) :
    updateRowCells hs r (kv :: t) =
      updateRowCells hs
        (match pyIndex hs kv.1 with
         | some i => r.set i kv.2
         | Option.none => r) t := by
  rw [updateRowCells, updateRowCells, List.foldl_cons]

theorem length_updateRowCells (hs : List String) (r : List Cell)
    (d : List (String × Cell)) :
    (updateRowCells hs r d).length = r.length := by
  induction d generalizing r with
  | nil => rfl
  | cons kv t ih =>
    rw [updateRowCells_cons]
    cases hik : pyIndex hs kv.1 with
    | none => simp only [hik]; exact ih r
    | some i =>
      simp only [hik]
      rw [ih (r.set i kv.2)]
      simp

theorem updateRowCells_getD {hs : List String} {d : List (String × Cell)}
    (hnd : (d.map Prod.fst).Nodup) (r : List Cell) {c : String} {p : Nat}
    (hp : pyIndex hs c = some p) (hlen : p < r.length) :
    (updateRowCells hs r d).getD p Cell.none =
      (lookupCell d c).getD (r.getD p Cell.none) := by
  induction d generalizing r with
  | nil => simp [updateRowCells, lookupCell]
  | cons kv t ih =>
    obtain ⟨k, v⟩ := kv
    simp only [List.map_cons, List.nodup_cons] at hnd
    rw [updateRowCells_cons, lookupCell]
    by_cases hkc : k = c
    · subst hkc
      rw [if_pos rfl]
      simp only [hp]
      have hnone : lookupCell t k = Option.none := lookupCell_eq_none hnd.1
      rw [ih hnd.2 (r.set p v) (by simpa using hlen), hnone]
      simp only [Option.getD_none, Option.getD_some]
      rw [List.getD_eq_getElem?_getD, List.getElem?_set_self hlen]
      rfl
    · rw [if_neg hkc]
      cases hik : pyIndex hs k with
      | none => simp only [hik]; exact ih hnd.2 r hlen
      | some j =>
        simp only [hik]
        have hjp : p ≠ j := pyIndex_ne hp hik (fun he => hkc he.symm)
        rw [ih hnd.2 (r.set j v) (by simpa using hlen)]
        rw [List.getD_eq_getElem?_getD, List.getD_eq_getElem?_getD,
          List.getElem?_set_ne (fun he => hjp he.symm)]

theorem findIdxFrom_eq_none {p : List Cell → Bool} {l : List (List Cell)} :
    findIdxFrom p l = Option.none ↔ ∀ r ∈ l, p r = false := by
  induction l with
  | nil => simp [findIdxFrom]
  | cons r rest ih =>
    rw [findIdxFrom]
    by_cases hr : p r
    · simp [hr]
    · simp only [Bool.not_eq_true] at hr
      simp [hr, ih]

theorem findIdxFrom_append_of_none {p : List Cell → Bool}
    {l1 : List (List Cell)} (h : ∀ r ∈ l1, p r = false) (l2 : List (List Cell)) :
    findIdxFrom p (l1 ++ l2) = (findIdxFrom p l2).map (· + l1.length) := by
  induction l1 with
  | nil => simp [Option.map_id]
  | cons r rest ih =>
    have hr : p r = false := h r (by simp)
    rw [List.cons_append, findIdxFrom, if_neg (by simp [hr])]
    rw [ih (fun x hx => h x (by simp [hx]))]
    cases findIdxFrom p l2 <;> simp
    omega

theorem pyOrEmptyStr_str (a : String) : pyOrEmptyStr (Cell.str a) = a := by
  rw [pyOrEmptyStr, cellTruthy]
  by_cases ha : a == ""
  · rw [if_neg (by simp [ha])]
    exact (eq_of_beq ha).symm
  · rw [if_pos (by simp [ha])]
    rfl

theorem rowCell_mem {r : List Cell} {i : Nat} {a : String}
    (h : rowCell r i = Cell.str a) : Cell.str a ∈ r := by
  rw [rowCell, List.getD_eq_getElem?_getD] at h
  cases hq : r[i]? with
  | none => rw [hq] at h; simp at h
  | some c =>
    rw [hq] at h
    simp only [Option.getD_some] at h
    subst h
    exact List.getElem?_mem hq

theorem isBlankRow_false_of_WF {r : List Cell} (h : WFRow r) :
    isBlankRow r = false := by
  obtain ⟨-, ⟨a, ha⟩, -⟩ := h
  have hm := rowCell_mem ha
  by_cases hb : isBlankRow r
  · rw [isBlankRow, List.all_eq_true] at hb
    have := hb _ hm
    simp at this
  · simpa using hb

/-- On a well-formed row, the match predicate of `_match_key` agrees with
the row predicate of `find_row_by_key` evaluated on the row's dict. -/
theorem matchPred_eq_findPred {r : List Cell} (hwf : WFRow r) (ti td : String) :
    rowMatchesKey 2 0 ti td r =
      (pyLower (pyStrip (dictGetStr (COLUMNS.zip r) "index_number")) == ti &&
       dictGetStr (COLUMNS.zip r) "appearance_date" == td) := by
  obtain ⟨hlen, ⟨a, ha⟩, ⟨b, hb⟩⟩ := hwf
  have hidx : lookupCell (COLUMNS.zip r) "index_number" = some (Cell.str a) := by
    rw [lookupCell_zip]
    have hpi : pyIndex COLUMNS "index_number" = some 2 := by decide
    rw [hpi]
    show r[2]? = some (Cell.str a)
    rw [rowCell, List.getD_eq_getElem?_getD] at ha
    cases hq : r[2]? with
    | none => rw [hq] at ha; simp at ha
    | some c =>
      rw [hq] at ha
      simp only [Option.getD_some] at ha
      rw [ha]
  have hdat : lookupCell (COLUMNS.zip r) "appearance_date" = some (Cell.str b) := by
    rw [lookupCell_zip]
    have hpi : pyIndex COLUMNS "appearance_date" = some 0 := by decide
    rw [hpi]
    show r[0]? = some (Cell.str b)
    rw [rowCell, List.getD_eq_getElem?_getD] at hb
    cases hq : r[0]? with
    | none => rw [hq] at hb; simp at hb
    | some c =>
      rw [hq] at hb
      simp only [Option.getD_some] at hb
      rw [hb]
  rw [rowMatchesKey, ha, hb, pyOrEmptyStr_str, pyOrEmptyStr_str]
  rw [dictGetStr, dictGetStr, hidx, hdat]
  rfl

theorem load_dataset_of_WF {s : Sheet} (hh : s.headers = COLUMNS)
    (hwf : ∀ r ∈ s.rows, WFRow r) :
    load_dataset s = s.rows.map (fun r => COLUMNS.zip r) := by
  rw [load_dataset, hh]
  congr 1
  rw [List.filter_eq_self]
  intro r hr
  rw [isBlankRow_false_of_WF (hwf r hr)]
  rfl

theorem zip_map_self {α β : Type} (l : List α) (f : α → β) :
    l.zip (l.map f) = l.map (fun x => (x, f x)) := by
  induction l with
  | nil => rfl
  | cons x t ih => simp [ih]

theorem findIdxFrom_some {p : List Cell → Bool} {l : List (List Cell)} {i : Nat}
    (h : findIdxFrom p l = some i) : ∃ r, l[i]? = some r ∧ p r = true := by
  induction l generalizing i with
  | nil => simp [findIdxFrom] at h
  | cons r rest ih =>
    rw [findIdxFrom] at h
    by_cases hr : p r
    · rw [if_pos hr] at h
      cases h
      exact ⟨r, by simp, hr⟩
    · rw [if_neg hr] at h
      obtain ⟨j, hj, rfl⟩ := by simpa using h
      obtain ⟨r2, hr2, hp2⟩ := ih hj
      exact ⟨r2, by simpa using hr2, hp2⟩

theorem newRowFromData_getD {d : List (String × Cell)} {c : String} {p : Nat}
    (hp : pyIndex COLUMNS c = some p) :
    (newRowFromData COLUMNS d).getD p Cell.none = dictGetCell d c := by
  rw [newRowFromData, List.getD_eq_getElem?_getD, List.getElem?_map,
    pyIndex_getElem? hp]
  rfl

theorem newRowFromData_WF {d : List (String × Cell)} {a b : String}
    (hia : lookupCell d "index_number" = some (Cell.str a))
    (hda : lookupCell d "appearance_date" = some (Cell.str b)) :
    WFRow (newRowFromData COLUMNS d) := by
  refine ⟨by simp [newRowFromData], ⟨a, ?_⟩, ⟨b, ?_⟩⟩
  · rw [rowCell, newRowFromData_getD (by decide : pyIndex COLUMNS "index_number" = some 2)]
    rw [dictGetCell, hia]
    rfl
  · rw [rowCell, newRowFromData_getD (by decide : pyIndex COLUMNS "appearance_date" = some 0)]
    rw [dictGetCell, hda]
    rfl

/-- With a canonical header, `upsert_row` cannot hit the `ValueError`
branch: it always returns an action and a sheet. -/
theorem upsert_row_isSome {s : Sheet} (hh : s.headers = COLUMNS)
    (d : List (String × Cell)) :
    ∃ act s2, upsert_row s d = some (act, s2) := by
  rw [upsert_row, _match_key, hh]
  rw [(by decide : pyIndex COLUMNS "index_number" = some 2),
    (by decide : pyIndex COLUMNS "appearance_date" = some 0)]
  cases findIdxFrom
      (rowMatchesKey 2 0 (pyLower (pyStrip (dictGetStr d "index_number")))
        (dictGetStr d "appearance_date")) s.rows with
  | none => exact ⟨_, _, rfl⟩
  | some i => exact ⟨_, _, rfl⟩

theorem contains_of_mem {l : List (String × String)} {k : String × String}
    (h : k ∈ l) : l.contains k = true := by
  rw [List.contains_eq_any_beq, List.any_eq_true]
  exact ⟨k, h, by simp⟩

theorem mem_of_contains {l : List (String × String)} {k : String × String}
    (h : l.contains k = true) : k ∈ l := by
  rw [List.contains_eq_any_beq, List.any_eq_true] at h
  obtain ⟨x, hx, hbeq⟩ := h
  have : k = x := by
    have := eq_of_beq hbeq
    exact this
  exact this ▸ hx

/-- The row loop never drops a row's rule errors: whatever errors earlier
rows contributed, every rule error of every non-blank row is in the
output (no fail-fast behaviour). -/
theorem mem_validateRows_of_ruleError (hs : List String) :
    ∀ (rows : List (List Cell)) (t : Nat) (seen : List (String × String))
      (n : Nat) (r : List Cell),
      rows[n]? = some r → isBlankRow r = false →
      ∀ e ∈ rowRuleErrors (t + n) (hs.zip r), e ∈ validateRows hs t seen rows := by
  intro rows
  induction rows with
  | nil => intro t seen n r hn; simp at hn
  | cons r0 rest ih =>
    intro t seen n r hn hblank e he
    cases n with
    | zero =>
      have hr0 : r0 = r := by simpa using hn
      subst hr0
      rw [validateRows, if_neg (by simp [hblank])]
      simp only [Nat.add_zero] at he
      simp only [List.mem_append]
      exact Or.inl (Or.inl he)
    | succ m =>
      simp only [List.getElem?_cons_succ] at hn
      rw [validateRows]
      by_cases hb0 : isBlankRow r0
      · rw [if_pos hb0]
        have := ih (t + 1) seen m r hn hblank e
          (by rw [show t + 1 + m = t + (m + 1) from by omega]; exact he)
        exact this
      · rw [if_neg hb0]
        simp only [List.mem_append]
        refine Or.inr ?_
        exact ih (t + 1) (rowKey (hs.zip r0) :: seen) m r hn hblank e
          (by rw [show t + 1 + m = t + (m + 1) from by omega]; exact he)

/-- The row loop reports a duplicate for a non-blank row whose key was
already seen, either in the seen set or on an earlier non-blank row. -/
theorem mem_validateRows_dup (hs : List String) :
    ∀ (rows : List (List Cell)) (t : Nat) (seen : List (String × String))
      (n : Nat) (r : List Cell),
      rows[n]? = some r → isBlankRow r = false →
      (rowKey (hs.zip r) ∈ seen ∨
        ∃ m rm, m < n ∧ rows[m]? = some rm ∧ isBlankRow rm = false ∧
          rowKey (hs.zip rm) = rowKey (hs.zip r)) →
      VErr.duplicateKey (t + n) (rowKey (hs.zip r)) ∈ validateRows hs t seen rows := by
  intro rows
  induction rows with
  | nil => intro t seen n r hn; simp at hn
  | cons r0 rest ih =>
    intro t seen n r hn hblank hseen
    cases n with
    | zero =>
      have hr0 : r0 = r := by simpa using hn
      subst hr0
      have hkeymem : rowKey (hs.zip r0) ∈ seen := by
        rcases hseen with h | ⟨m, rm, hm, _, _, _⟩
        · exact h
        · omega
      rw [validateRows, if_neg (by simp [hblank])]
      simp only [List.mem_append]
      refine Or.inl (Or.inr ?_)
      rw [if_pos (contains_of_mem hkeymem)]
      simp [Nat.add_zero]
    | succ m =>
      simp only [List.getElem?_cons_succ] at hn
      rw [validateRows]
      by_cases hb0 : isBlankRow r0
      · rw [if_pos hb0]
        have hseen2 : rowKey (hs.zip r) ∈ seen ∨
            ∃ j rj, j < m ∧ rest[j]? = some rj ∧ isBlankRow rj = false ∧
              rowKey (hs.zip rj) = rowKey (hs.zip r) := by
          rcases hseen with h | ⟨j, rj, hj, hjg, hjb, hjk⟩
          · exact Or.inl h
          · cases j with
            | zero =>
              simp only [List.getElem?_cons_zero] at hjg
              cases hjg
              rw [hb0] at hjb
              simp at hjb
            | succ j2 =>
              simp only [List.getElem?_cons_succ] at hjg
              exact Or.inr ⟨j2, rj, by omega, hjg, hjb, hjk⟩
        have := ih (t + 1) seen m r hn hblank hseen2
        rw [show t + 1 + m = t + (m + 1) from by omega] at this
        exact this
      · rw [if_neg hb0]
        simp only [List.mem_append]
        refine Or.inr ?_
        have hseen2 : rowKey (hs.zip r) ∈ (rowKey (hs.zip r0) :: seen) ∨
            ∃ j rj, j < m ∧ rest[j]? = some rj ∧ isBlankRow rj = false ∧
              rowKey (hs.zip rj) = rowKey (hs.zip r) := by
          rcases hseen with h | ⟨j, rj, hj, hjg, hjb, hjk⟩
          · exact Or.inl (List.mem_cons_of_mem _ h)
          · cases j with
            | zero =>
              simp only [List.getElem?_cons_zero] at hjg
              cases hjg
              exact Or.inl (by rw [hjk]; exact List.mem_cons_self _ _)
            | succ j2 =>
              simp only [List.getElem?_cons_succ] at hjg
              exact Or.inr ⟨j2, rj, by omega, hjg, hjb, hjk⟩
        have := ih (t + 1) (rowKey (hs.zip r0) :: seen) m r hn hblank hseen2
        rw [show t + 1 + m = t + (m + 1) from by omega] at this
        exact this

-- Counter lemmas

-- Lock lemmas

theorem setPhase_phase (s : LockSys) (p : Bool) (ph : LockPhase) (q : Bool) :
    (setPhase s p ph).phase q = if q = p then ph else s.phase q := by
  cases p <;> cases q <;> simp [setPhase, LockSys.phase]

theorem setPhase_holder (s : LockSys) (p : Bool) (ph : LockPhase) :
    (setPhase s p ph).holder = s.holder := by
  cases p <;> simp [setPhase]

/-- The lock invariant: a process inside its critical section holds the
OS flock. -/
def LockInv (s : LockSys) : Prop :=
  ∀ p, s.phase p = LockPhase.holding → s.holder = some p

theorem lockInv_init : LockInv lockInit := by
  intro p hp
  cases p <;> simp [lockInit, LockSys.phase] at hp

theorem lockInv_step {s s2 : LockSys} (hs : LockInv s) (h : LockStep s s2) :
    LockInv s2 := by
  cases h with
  | start p hp =>
    intro q hq
    rw [setPhase_phase] at hq
    rw [setPhase_holder]
    by_cases hqp : q = p
    · rw [if_pos hqp] at hq; exact absurd hq (by simp)
    · rw [if_neg hqp] at hq; exact hs q hq
  | acquireOk p hp hfree =>
    intro q hq
    have hph : ({ setPhase s p LockPhase.holding with holder := some p } : LockSys).phase q =
        (setPhase s p LockPhase.holding).phase q := by
      cases p <;> rfl
    rw [hph, setPhase_phase] at hq
    by_cases hqp : q = p
    · subst hqp; rfl
    · rw [if_neg hqp] at hq
      exact absurd (hs q hq) (by rw [hfree]; simp)
  | retryAttempt p hp hheld => exact hs
  | timeoutFail p hp hheld =>
    intro q hq
    rw [setPhase_phase] at hq
    rw [setPhase_holder]
    by_cases hqp : q = p
    · rw [if_pos hqp] at hq; exact absurd hq (by simp)
    · rw [if_neg hqp] at hq; exact hs q hq
  | releaseLock p hp =>
    intro q hq
    have hph : ({ setPhase s p LockPhase.released with holder := Option.none } : LockSys).phase q =
        (setPhase s p LockPhase.released).phase q := by
      cases p <;> rfl
    rw [hph, setPhase_phase] at hq
    by_cases hqp : q = p
    · rw [if_pos hqp] at hq; exact absurd hq (by simp)
    · rw [if_neg hqp] at hq
      have h1 := hs q hq
      have h2 := hs p hp
      rw [h1] at h2
      exact absurd (Option.some.inj h2) hqp

theorem lockInv_reachable {s : LockSys} (h : LockReachable s) : LockInv s := by
  induction h with
  | refl => exact lockInv_init
  | tail hr hstep ih => exact lockInv_step ih hstep

theorem nextCounter_same_year (yearly_reset : Bool) (year last : Int) :
    nextCounter yearly_reset year (some { year := year, last_number := last }) =
      { year := year, last_number := last + 1 } := by
  rw [nextCounter, _load_counter]
  simp

theorem nextCounter_none (yearly_reset : Bool) (year : Int) :
    nextCounter yearly_reset year Option.none =
      { year := year, last_number := 1 } := by
  rw [nextCounter, _load_counter]
  simp

theorem validateRows_complete_aux (s : Sheet)
    (h : COLUMNS.filter (fun c => !(s.headers.contains c)) = []) :
    validate_dataset s = validateRows s.headers 2 [] s.rows := by
  rw [validate_dataset]
  simp only [h, List.isEmpty_nil, if_pos]

theorem validate_dataset_missing (s : Sheet)
    (h : COLUMNS.filter (fun c => !(s.headers.contains c)) ≠ []) :
    validate_dataset s =
      [VErr.missingColumns (COLUMNS.filter (fun c => !(s.headers.contains c)))] := by
  rw [validate_dataset]
  rw [if_neg (by simpa using h)]

theorem seqNumbers_same_year (yearly_reset : Bool) (year : Int) (n : Nat) :
    ∀ last : Int,
      seqNumbers yearly_reset year (some { year := year, last_number := last }) n =
        (List.range n).map (fun k : Nat => (last + 1 + k : Int)) := by
  induction n with
  | zero => intro last; rfl
  | succ n ih =>
    intro last
    rw [seqNumbers]
    simp only [nextCounter_same_year]
    rw [ih (last + 1)]
    rw [List.range_succ_eq_map, List.map_cons, List.map_map]
    congr 1
    · push_cast
      ring
    · apply List.map_congr_left
      intro k hk
      simp only [Function.comp_apply, Nat.succ_eq_add_one]
      push_cast
      ring

theorem mem_of_contains_str {l : List String} {x : String}
    (h : l.contains x = true) : x ∈ l :=
  List.elem_iff.mp h

theorem not_mem_of_contains_str {l : List String} {x : String}
    (h : l.contains x = false) : x ∉ l := by
  intro hm
  have h2 : l.elem x = true := List.elem_iff.mpr hm
  have h3 : l.elem x = false := h
  rw [h2] at h3
  exact Bool.noConfusion h3

-- ── Claim theorems ────────────────────────────────────────────────────

/-- C1.  The claim says every `upsert_row` performs its read-modify-write
under the firm's exclusive lock, so no two upserts on one firm's table
overlap.  In the source, `upsert_row` acquires no lock at all (and its
batch caller even passes it a `_hold_lock` keyword it does not accept),
so two processes may both load the same table before either saves.  This
theorem evaluates that interleaving: both calls on the same initial table
report `inserted`, but the table the second call saves — the file's final
contents — does not contain the first call's row: the first insert is
lost, which the claimed mutual exclusion forbids. -/
theorem upsert_unlocked_lost_update :
    upsert_row emptySheet0 raceRecA =
      some (UpsertAction.inserted, { headers := COLUMNS, rows := [raceRowA] }) ∧
    upsert_row emptySheet0 raceRecB =
      some (UpsertAction.inserted, { headers := COLUMNS, rows := [raceRowB] }) ∧
    find_row_by_key { headers := COLUMNS, rows := [raceRowA] }
      "IDX-1" "2026-01-05" ≠ Option.none ∧
    find_row_by_key { headers := COLUMNS, rows := [raceRowB] }
      "IDX-1" "2026-01-05" = Option.none := by
  refine ⟨by decide, by decide, by decide, by decide⟩

/-- C4.  Invoice counter monotonicity: successive calls within one
calendar year return sequence numbers increasing by exactly 1 with no
gaps or repeats — explicitly, the k-th call returns `last + 1 + k` when
the stored counter holds `last` for the current year, and `1 + k` when no
counter exists yet; and with yearly reset on, a stored year different
from the current one restarts the sequence at 1 under the current year. -/
theorem invoice_counter_monotone (initials : String) (year : Int) (n : Nat) :
    (∀ (yearly_reset : Bool) (last : Int),
        seqNumbers yearly_reset year (some { year := year, last_number := last }) n =
          (List.range n).map (fun k : Nat => (last + 1 + k : Int)))
    ∧ (∀ yearly_reset : Bool,
        seqNumbers yearly_reset year Option.none n =
          (List.range n).map (fun k : Nat => (1 + k : Int)))
    ∧ (∀ (y last : Int), y ≠ year →
        next_invoice_number initials true year (some { year := y, last_number := last }) =
          (formatInvoice initials year 1, { year := year, last_number := 1 })) := by
  refine ⟨fun yr last => seqNumbers_same_year yr year n last, fun yr => ?_, ?_⟩
  · have hnone : seqNumbers yr year Option.none n =
        seqNumbers yr year (some { year := year, last_number := 0 }) n := by
      cases n with
      | zero => rfl
      | succ m =>
        rw [seqNumbers, seqNumbers, nextCounter_none, nextCounter_same_year]
        norm_num
    rw [hnone, seqNumbers_same_year yr year n 0]
    apply List.map_congr_left
    intro k hk
    ring
  · intro y last h
    rw [next_invoice_number, nextCounter, _load_counter]
    simp only [Option.getD_some]
    rw [if_pos (by simp [beq_iff_eq, h])]
    norm_num [formatInvoice]

/-- C4 witness: three same-year calls continue 41 → 42, 43, 44; a fresh
counter starts at 1; a stale 2025 counter resets to `AL2026001`. -/
theorem invoice_counter_monotone_witness :
    seqNumbers true 2026 (some { year := 2026, last_number := 41 }) 3 = [42, 43, 44] ∧
    seqNumbers false 2026 Option.none 3 = [1, 2, 3] ∧
    next_invoice_number "AL" true 2026 (some { year := 2025, last_number := 7 }) =
      (formatInvoice "AL" 2026 1, { year := 2026, last_number := 1 }) := by
  obtain ⟨h1, h2, h3⟩ := invoice_counter_monotone "AL" 2026 3
  exact ⟨by rw [h1 true 41]; decide, by rw [h2 false]; decide, h3 2025 7 (by decide)⟩

/-- C9.  With yearly reset disabled and a stored counter from an older
year, `next_invoice_number` keeps incrementing the stored sequence and
formats the result with the stored (old) year, not the current one. -/
theorem counter_no_reset_uses_stored_year (initials : String) (y last year : Int)
    (_h : y ≠ year) :
    next_invoice_number initials false year (some { year := y, last_number := last }) =
      (formatInvoice initials y (last + 1), { year := y, last_number := last + 1 }) := by
  rw [next_invoice_number, nextCounter, _load_counter]
  simp

/-- C9 witness: a 2025 counter at 41, used in 2026 without yearly reset,
yields `AL2025042`. -/
theorem counter_no_reset_witness :
    next_invoice_number "AL" false 2026 (some { year := 2025, last_number := 41 }) =
      (formatInvoice "AL" 2025 42, { year := 2025, last_number := 42 }) :=
  counter_no_reset_uses_stored_year "AL" 2025 41 2026 (by decide)

/-- C5 counterexample.  On a table whose rows 2 and 3 share the composite
key, the only error `validate_dataset` returns is a duplicate-key error
naming row 3 and the key; no returned error names row 2.  The claim that
the error references both offending row positions is false. -/
theorem validate_duplicate_counterexample :
    validate_dataset dupSheet = [VErr.duplicateKey 3 ("abc", "2026-01-05")] ∧
    ∀ k, VErr.duplicateKey 2 k ∉ validate_dataset dupSheet := by
  have h : validate_dataset dupSheet =
      [VErr.duplicateKey 3 ("abc", "2026-01-05")] := by decide
  refine ⟨h, fun k hk => ?_⟩
  rw [h, List.mem_singleton, VErr.duplicateKey.injEq] at hk
  exact absurd hk.1 (by decide)

/-- C5 amended.  Whenever two non-blank rows of a schema-complete table
share the composite key (case-insensitive on the index number), the
validator always returns a duplicate-key error referencing the later
row's position and the shared key; the earlier row's position is not part
of the error. -/
theorem validate_duplicate_reports_later_row (s : Sheet)
    (hcols : COLUMNS.filter (fun c => !(s.headers.contains c)) = [])
    (m n : Nat) (rm rn : List Cell) (hmn : m < n)
    (hm : s.rows[m]? = some rm) (hn : s.rows[n]? = some rn)
    (hbm : isBlankRow rm = false) (hbn : isBlankRow rn = false)
    (hkey : rowKey (s.headers.zip rm) = rowKey (s.headers.zip rn)) :
    VErr.duplicateKey (n + 2) (rowKey (s.headers.zip rn)) ∈ validate_dataset s := by
  rw [validateRows_complete_aux s hcols]
  have := mem_validateRows_dup s.headers s.rows 2 [] n rn hn hbn
    (Or.inr ⟨m, rm, hmn, hm, hbm, hkey⟩)
  rw [show 2 + n = n + 2 from by omega] at this
  exact this

/-- C5 amended witness: the duplicate in `dupSheet` is reported at row 3
with the shared key. -/
theorem validate_duplicate_reports_later_row_witness :
    VErr.duplicateKey 3 (rowKey (dupSheet.headers.zip dupRow2)) ∈
      validate_dataset dupSheet :=
  validate_duplicate_reports_later_row dupSheet (by decide) 0 1 dupRow1 dupRow2
    (by decide) (by decide) (by decide) (by decide) (by decide) (by decide)

/-- C7 counterexample.  A header containing every required column but
missing the non-required `notes` column: `validate_dataset` returns the
single missing-columns error and performs no row-level checks, even
though the (non-blank) data row violates the required-field rule.  The
claim that row-level rules run whenever all required columns are present
is false: the schema gate fires on any missing canonical column. -/
theorem validate_nonrequired_column_gate_counterexample :
    (∀ c ∈ REQUIRED_COLUMNS, headersNoNotes.contains c = true) ∧
    validate_dataset noNotesSheet = [VErr.missingColumns ["notes"]] ∧
    isBlankRow badCaptionRow = false ∧
    requiredErrors 2 (headersNoNotes.zip badCaptionRow) =
      [VErr.missingRequired 2 "case_caption"] ∧
    VErr.missingRequired 2 "case_caption" ∉ validate_dataset noNotesSheet := by
  refine ⟨by decide, by decide, by decide, by decide, by decide⟩

/-- C7 amended.  If any of the twelve canonical columns is missing from
the header, `validate_dataset` returns the single missing-columns error
(and no row-level checks run); when every canonical column is present, it
applies all row-level rules to every non-blank row and returns all their
violations together — no row's rule errors are ever dropped because of
earlier rows' errors. -/
theorem validate_gate_and_completeness (s : Sheet) :
    (COLUMNS.filter (fun c => !(s.headers.contains c)) ≠ [] →
      validate_dataset s =
        [VErr.missingColumns (COLUMNS.filter (fun c => !(s.headers.contains c)))])
    ∧ (COLUMNS.filter (fun c => !(s.headers.contains c)) = [] →
        ∀ n r, s.rows[n]? = some r → isBlankRow r = false →
          ∀ e ∈ rowRuleErrors (n + 2) (s.headers.zip r), e ∈ validate_dataset s) := by
  constructor
  · exact validate_dataset_missing s
  · intro h n r hn hb e he
    rw [validateRows_complete_aux s h]
    exact mem_validateRows_of_ruleError s.headers s.rows 2 [] n r hn hb e
      (by rw [show 2 + n = n + 2 from by omega]; exact he)

/-- C7 amended witness: the gate fires for the header missing `notes`;
with the full header, the blank-caption violation of row 2 is in the
output. -/
theorem validate_gate_and_completeness_witness :
    validate_dataset noNotesSheet =
      [VErr.missingColumns
        (COLUMNS.filter (fun c => !(noNotesSheet.headers.contains c)))] ∧
    VErr.missingRequired 2 "case_caption" ∈ validate_dataset badCaptionSheet := by
  refine ⟨(validate_gate_and_completeness noNotesSheet).1 (by decide), ?_⟩
  exact (validate_gate_and_completeness badCaptionSheet).2 (by decide) 0
    badCaptionRow12 (by decide) (by decide)
    (VErr.missingRequired 2 "case_caption") (by decide)

/-- C10.  `edit_case_field` on `case_status` rejects any value not
exactly one of the five valid statuses — including the empty string —
with a validation failure, leaving the sheet and the audit log unchanged;
yet the schema itself accepts a blank `case_status` (the validator's
status rule produces no error for a blank cell), so a status can never be
cleared back to blank through editing. -/
theorem edit_case_status_rejects_invalid
    (kf : List String) (s : Sheet) (a : List AuditEntry)
    (firm index_number appearance_date new_value : String) (reason : Option String)
    (row : List (String × Cell))
    (hf : kf.contains firm = true)
    (hrow : find_row_by_key s index_number appearance_date = some row)
    (hnv : VALID_CASE_STATUSES.contains new_value = false) :
    edit_case_field kf s a firm index_number appearance_date "case_status"
        new_value reason = some (EditOutcome.invalidCaseStatus, s, a)
    ∧ (∀ n r2, dictGetCell r2 "case_status" = Cell.str "" →
        caseStatusErrors n r2 = []) := by
  constructor
  · have hact : editActionOf "case_status" = some "EDIT_STATUS" := by decide
    simp [edit_case_field, hf, hrow, hact, hnv, mem_of_contains_str hf,
      not_mem_of_contains_str hnv]
  · intro n r2 h2
    unfold caseStatusErrors
    rw [h2]
    rfl

/-- C10 witness: clearing `case_status` to blank on an existing case
fails with the validation error and changes nothing, while the validator
itself accepts blank statuses. -/
theorem edit_case_status_rejects_invalid_witness :
    edit_case_field ["Acme"] sentSheet [] "Acme" "IDX-1" "2026-01-05" "case_status"
        "" Option.none = some (EditOutcome.invalidCaseStatus, sentSheet, [])
    ∧ (∀ n r2, dictGetCell r2 "case_status" = Cell.str "" →
        caseStatusErrors n r2 = []) :=
  edit_case_status_rejects_invalid ["Acme"] sentSheet [] "Acme" "IDX-1"
    "2026-01-05" "" Option.none (COLUMNS.zip sentRow)
    (by decide) (by decide) (by decide)

/-- C2 counterexample.  On an existing record whose `invoice_sent_date`
is populated, `edit_case_field` on `charge_amount` with a NON-EMPTY
reason still fails (with the numeric validation error) when the new
value does not parse as a number — so "a non-empty reason is supplied
implies the call succeeds" is false as stated. -/
theorem edit_charge_nonnumeric_counterexample :
    dictGetCell (COLUMNS.zip sentRow) "invoice_sent_date" = Cell.str "2026-02-01" ∧
    find_row_by_key sentSheet "IDX-1" "2026-01-05" = some (COLUMNS.zip sentRow) ∧
    edit_case_field ["Acme"] sentSheet [] "Acme" "IDX-1" "2026-01-05"
        "charge_amount" "abc" (some "typo fix") =
      some (EditOutcome.invalidChargeAmount, sentSheet, []) := by
  refine ⟨by decide, by decide, by decide⟩

/-- C2 amended.  For a charge edit on an existing record whose
`invoice_sent_date` is non-empty: an absent or empty reason always fails
with `ReasonRequired`, leaving the sheet and the audit log untouched
(the check runs before any mutation, even before type coercion); with a
non-empty reason, if the new value parses as a number the call succeeds,
performs the upsert, and appends exactly one audit entry carrying that
reason; if it does not parse, the call fails with the numeric validation
error and mutates nothing. -/
theorem edit_charge_reason_spec
    (kf : List String) (s : Sheet) (a : List AuditEntry)
    (firm index_number appearance_date new_value : String) (reason : Option String)
    (row : List (String × Cell))
    (hh : s.headers = COLUMNS)
    (hf : kf.contains firm = true)
    (hrow : find_row_by_key s index_number appearance_date = some row)
    (hsent1 : dictGetCell row "invoice_sent_date" ≠ Cell.none)
    (hsent2 : pyStrip (cellToPyStr (dictGetCell row "invoice_sent_date")) ≠ "") :
    ((reason = Option.none ∨ reason = some "") →
      edit_case_field kf s a firm index_number appearance_date "charge_amount"
          new_value reason = some (EditOutcome.reasonRequired, s, a))
    ∧ (∀ r q, reason = some r → r ≠ "" → pyFloat? new_value = some q →
        ∃ act s2,
          upsert_row s
            [("index_number", Cell.str index_number),
             ("appearance_date", Cell.str appearance_date),
             ("charge_amount", Cell.num q)] = some (act, s2) ∧
          edit_case_field kf s a firm index_number appearance_date "charge_amount"
              new_value reason =
            some (EditOutcome.ok (dictGetCell row "charge_amount") (Cell.num q), s2,
              a ++ [{ action := "EDIT_CHARGE", firm := firm,
                      case_key := index_number ++ "|" ++ appearance_date,
                      field_name := "charge_amount",
                      old_value := auditValueStr (dictGetCell row "charge_amount"),
                      new_value := auditValueStr (Cell.num q),
                      reason := r }]))
    ∧ (∀ r, reason = some r → r ≠ "" → pyFloat? new_value = Option.none →
        edit_case_field kf s a firm index_number appearance_date "charge_amount"
            new_value reason = some (EditOutcome.invalidChargeAmount, s, a)) := by
  have hact : editActionOf "charge_amount" = some "EDIT_CHARGE" := by decide
  have hcc : ("charge_amount" == "charge_amount") = true := by decide
  have hs1 : (dictGetCell row "invoice_sent_date" == Cell.none) = false := by
    rw [beq_eq_false_iff_ne]
    exact hsent1
  have hs2 : (pyStrip (cellToPyStr (dictGetCell row "invoice_sent_date")) == "") =
      false := by
    rw [beq_eq_false_iff_ne]
    exact hsent2
  refine ⟨?_, ?_, ?_⟩
  · intro hre
    have hfr : pyFalsyReason reason = true := by
      rcases hre with rfl | rfl <;> rfl
    simp [edit_case_field, hf, hact, hrow, hcc, hs1, hs2, hfr,
      mem_of_contains_str hf]
  · intro r q hr hrne hq
    subst hr
    have hfr : pyFalsyReason (some r) = false := beq_eq_false_iff_ne.mpr hrne
    obtain ⟨act, s2, hup⟩ := upsert_row_isSome hh
      [("index_number", Cell.str index_number),
       ("appearance_date", Cell.str appearance_date),
       ("charge_amount", Cell.num q)]
    refine ⟨act, s2, hup, ?_⟩
    simp [edit_case_field, hf, hact, hrow, hcc, hs1, hs2, hfr, hq, hup,
      append_audit, mem_of_contains_str hf]
  · intro r hr hrne hq
    subst hr
    have hfr : pyFalsyReason (some r) = false := beq_eq_false_iff_ne.mpr hrne
    simp [edit_case_field, hf, hact, hrow, hcc, hs1, hs2, hfr, hq,
      mem_of_contains_str hf]

/-- C2 witness: on the concrete sent-invoice table, an absent reason
fails with `ReasonRequired` and no mutation; the reason "typo fix" with
the numeric value "200" succeeds with exactly one audit entry carrying
that reason. -/
theorem edit_charge_reason_spec_witness :
    edit_case_field ["Acme"] sentSheet [] "Acme" "IDX-1" "2026-01-05"
        "charge_amount" "200" Option.none =
      some (EditOutcome.reasonRequired, sentSheet, []) ∧
    (∃ act s2,
      upsert_row sentSheet
        [("index_number", Cell.str "IDX-1"),
         ("appearance_date", Cell.str "2026-01-05"),
         ("charge_amount", Cell.num 200)] = some (act, s2) ∧
      edit_case_field ["Acme"] sentSheet [] "Acme" "IDX-1" "2026-01-05"
          "charge_amount" "200" (some "typo fix") =
        some (EditOutcome.ok (dictGetCell (COLUMNS.zip sentRow) "charge_amount")
            (Cell.num 200), s2,
          [] ++ [{ action := "EDIT_CHARGE", firm := "Acme",
                   case_key := "IDX-1" ++ "|" ++ "2026-01-05",
                   field_name := "charge_amount",
                   old_value := auditValueStr
                     (dictGetCell (COLUMNS.zip sentRow) "charge_amount"),
                   new_value := auditValueStr (Cell.num 200),
                   reason := "typo fix" }])) := by
  constructor
  · exact (edit_charge_reason_spec ["Acme"] sentSheet [] "Acme" "IDX-1" "2026-01-05"
      "200" Option.none (COLUMNS.zip sentRow) (by decide) (by decide) (by decide)
      (by decide) (by decide)).1 (Or.inl rfl)
  · exact (edit_charge_reason_spec ["Acme"] sentSheet [] "Acme" "IDX-1" "2026-01-05"
      "200" (some "typo fix") (COLUMNS.zip sentRow) (by decide) (by decide)
      (by decide) (by decide) (by decide)).2.1 "typo fix" 200 rfl (by decide)
      (by decide)

/-- C8.  Mutual exclusion of `FirmFileLock`: in every reachable state of
two processes contending for one firm's lock, they are never both inside
the critical section; and while one process holds the lock, no single
step can bring the other into the holding state — a second `acquire`
succeeds only after the holder releases (the model also allows the
waiter to give up with the timeout failure instead). -/
theorem lock_mutual_exclusion (s s2 : LockSys) (hs : LockReachable s) :
    ¬(s.phaseA = LockPhase.holding ∧ s.phaseB = LockPhase.holding)
    ∧ (s.phaseA = LockPhase.holding → LockStep s s2 →
        s2.phaseB ≠ LockPhase.holding) := by
  have hinv : LockInv s := lockInv_reachable hs
  have hmutex : ¬(s.phaseA = LockPhase.holding ∧ s.phaseB = LockPhase.holding) := by
    rintro ⟨hA, hB⟩
    have h1 : s.holder = some true := hinv true hA
    have h2 : s.holder = some false := hinv false hB
    rw [h1] at h2
    exact Bool.noConfusion (Option.some.inj h2)
  refine ⟨hmutex, ?_⟩
  intro hA hstep hB2
  have hholder : s.holder = some true := hinv true hA
  have hBnot : s.phaseB ≠ LockPhase.holding := fun hB => hmutex ⟨hA, hB⟩
  cases hstep with
  | start p hp =>
    have : (setPhase s p LockPhase.acquiring).phase false = LockPhase.holding := by
      cases p <;> exact hB2
    rw [setPhase_phase] at this
    by_cases hpf : (false : Bool) = p
    · rw [if_pos hpf] at this
      exact LockPhase.noConfusion this
    · rw [if_neg hpf] at this
      exact hBnot this
  | acquireOk p hp hfree =>
    rw [hholder] at hfree
    exact Option.noConfusion hfree
  | retryAttempt p hp hheld => exact hBnot hB2
  | timeoutFail p hp hheld =>
    have : (setPhase s p LockPhase.timedOut).phase false = LockPhase.holding := by
      cases p <;> exact hB2
    rw [setPhase_phase] at this
    by_cases hpf : (false : Bool) = p
    · rw [if_pos hpf] at this
      exact LockPhase.noConfusion this
    · rw [if_neg hpf] at this
      exact hBnot this
  | releaseLock p hp =>
    have : (setPhase s p LockPhase.released).phase false = LockPhase.holding := by
      cases p <;> exact hB2
    rw [setPhase_phase] at this
    by_cases hpf : (false : Bool) = p
    · rw [if_pos hpf] at this
      exact LockPhase.noConfusion this
    · rw [if_neg hpf] at this
      exact hBnot this

/-- C8 witness: the state where A holds the flock and B is polling is
reachable (start A, acquire A, start B); there both do not hold, and B's
retry step cannot make B hold. -/
theorem lock_mutual_exclusion_witness :
    ¬(lockDemoState.phaseA = LockPhase.holding ∧
      lockDemoState.phaseB = LockPhase.holding)
    ∧ (lockDemoState.phaseA = LockPhase.holding → LockStep lockDemoState lockDemoState →
        lockDemoState.phaseB ≠ LockPhase.holding) := by
  have hreach : LockReachable lockDemoState := by
    have s1 : LockStep lockInit (setPhase lockInit true LockPhase.acquiring) :=
      LockStep.start lockInit true rfl
    have s2 : LockStep (setPhase lockInit true LockPhase.acquiring)
        { setPhase (setPhase lockInit true LockPhase.acquiring) true
            LockPhase.holding with holder := some true } :=
      LockStep.acquireOk (setPhase lockInit true LockPhase.acquiring) true rfl rfl
    have s3 : LockStep
        { setPhase (setPhase lockInit true LockPhase.acquiring) true
            LockPhase.holding with holder := some true }
        lockDemoState :=
      LockStep.start
        { setPhase (setPhase lockInit true LockPhase.acquiring) true
            LockPhase.holding with holder := some true } false rfl
    exact Relation.ReflTransGen.tail
      (Relation.ReflTransGen.tail
        (Relation.ReflTransGen.tail Relation.ReflTransGen.refl s1) s2) s3
  exact lock_mutual_exclusion lockDemoState lockDemoState hreach

/-- C3.  `upsert_row` matches by the composite key (index number
case-insensitive after stripping, appearance date by string).  On a
well-formed firm table (canonical header, rows aligned with it, key
cells stored as strings): if `find_row_by_key` does not find the key,
the upsert returns `inserted` and appends exactly one row whose
unsupplied cells are `None`, and a subsequent `find_row_by_key` returns
exactly the supplied fields merged with the (empty) defaults; if the key
matches row `i`, the upsert returns `updated` and rewrites only that
row, where each column holds the supplied value when the partial record
contains it and the old value otherwise. -/
theorem upsert_insert_update_spec
    (s : Sheet) (d : List (String × Cell)) (a b : String)
    (hh : s.headers = COLUMNS)
    (hwf : ∀ r ∈ s.rows, WFRow r)
    (hnd : (d.map Prod.fst).Nodup)
    (hia : lookupCell d "index_number" = some (Cell.str a))
    (hda : lookupCell d "appearance_date" = some (Cell.str b)) :
    (find_row_by_key s a b = Option.none →
      upsert_row s d = some (UpsertAction.inserted,
        { headers := COLUMNS, rows := s.rows ++ [newRowFromData COLUMNS d] }) ∧
      find_row_by_key
        { headers := COLUMNS, rows := s.rows ++ [newRowFromData COLUMNS d] } a b =
        some (COLUMNS.map (fun c => (c, dictGetCell d c))))
    ∧ (∀ i, _match_key s a b = some (some i) →
        upsert_row s d = some (UpsertAction.updated,
          { headers := COLUMNS,
            rows := s.rows.set i (updateRowCells COLUMNS (s.rows.getD i []) d) }) ∧
        ∀ c p, pyIndex COLUMNS c = some p →
          (updateRowCells COLUMNS (s.rows.getD i []) d).getD p Cell.none =
            (lookupCell d c).getD ((s.rows.getD i []).getD p Cell.none)) := by
  obtain ⟨H, R⟩ := s
  dsimp only at hh hwf ⊢
  subst hh
  have hida : dictGetStr d "index_number" = a := by
    unfold dictGetStr
    rw [hia]
    rfl
  have hdab : dictGetStr d "appearance_date" = b := by
    unfold dictGetStr
    rw [hda]
    rfl
  have hpi2 : pyIndex COLUMNS "index_number" = some 2 := by decide
  have hpi0 : pyIndex COLUMNS "appearance_date" = some 0 := by decide
  have hmk : _match_key ⟨COLUMNS, R⟩ a b =
      some (findIdxFrom (rowMatchesKey 2 0 (pyLower (pyStrip a)) b) R) := by
    unfold _match_key
    dsimp only
    rw [hpi2, hpi0]
  constructor
  · -- insert branch
    intro hfind
    unfold find_row_by_key at hfind
    dsimp only at hfind
    rw [load_dataset_of_WF rfl hwf] at hfind
    have hall : ∀ r ∈ R, rowMatchesKey 2 0 (pyLower (pyStrip a)) b r = false := by
      intro r hr
      rw [matchPred_eq_findPred (hwf r hr)]
      have hmem : COLUMNS.zip r ∈ R.map (fun r => COLUMNS.zip r) :=
        List.mem_map_of_mem _ hr
      have := List.find?_eq_none.mp hfind (COLUMNS.zip r) hmem
      simpa using this
    have hnone : findIdxFrom (rowMatchesKey 2 0 (pyLower (pyStrip a)) b) R =
        Option.none := findIdxFrom_eq_none.mpr hall
    have hup : upsert_row ⟨COLUMNS, R⟩ d = some (UpsertAction.inserted,
        { headers := COLUMNS, rows := R ++ [newRowFromData COLUMNS d] }) := by
      unfold upsert_row
      dsimp only
      rw [hida, hdab, hmk, hnone]
      rfl
    refine ⟨hup, ?_⟩
    -- the lookup after the insert
    have hwfN : WFRow (newRowFromData COLUMNS d) := newRowFromData_WF hia hda
    have hwf2 : ∀ r ∈ R ++ [newRowFromData COLUMNS d], WFRow r := by
      intro r hr
      rcases List.mem_append.mp hr with h | h
      · exact hwf r h
      · rw [List.mem_singleton] at h
        rw [h]
        exact hwfN
    have hN2 : lookupCell (COLUMNS.zip (newRowFromData COLUMNS d)) "index_number" =
        some (Cell.str a) := by
      rw [lookupCell_zip, hpi2]
      show (newRowFromData COLUMNS d)[2]? = some (Cell.str a)
      unfold newRowFromData
      rw [List.getElem?_map, (by rfl : COLUMNS[2]? = some "index_number")]
      simp [dictGetCell, hia]
    have hN0 : lookupCell (COLUMNS.zip (newRowFromData COLUMNS d)) "appearance_date" =
        some (Cell.str b) := by
      rw [lookupCell_zip, hpi0]
      show (newRowFromData COLUMNS d)[0]? = some (Cell.str b)
      unfold newRowFromData
      rw [List.getElem?_map, (by rfl : COLUMNS[0]? = some "appearance_date")]
      simp [dictGetCell, hda]
    unfold find_row_by_key
    dsimp only
    rw [load_dataset_of_WF rfl hwf2, List.map_append]
    rw [List.find?_append, hfind]
    dsimp only [List.map_cons, List.map_nil]
    rw [List.find?_cons_of_pos]
    · unfold newRowFromData
      rw [zip_map_self]
      rfl
    · unfold dictGetStr
      rw [hN2, hN0]
      simp [cellToPyStr]
  · -- update branch
    intro i hmi
    rw [hmk] at hmi
    have hidx : findIdxFrom (rowMatchesKey 2 0 (pyLower (pyStrip a)) b) R = some i :=
      Option.some.inj hmi
    obtain ⟨r, hri, hpr⟩ := findIdxFrom_some hidx
    have hrmem : r ∈ R := List.getElem?_mem hri
    have hrget : R.getD i [] = r := by
      rw [List.getD_eq_getElem?_getD, hri]
      rfl
    have hrlen : r.length = COLUMNS.length := (hwf r hrmem).1
    constructor
    · unfold upsert_row
      dsimp only
      rw [hida, hdab, hmk, hidx]
      rfl
    · intro c p hp
      have hlen : p < (R.getD i []).length := by
        rw [hrget, hrlen]
        exact pyIndex_lt hp
      exact updateRowCells_getD hnd (R.getD i []) hp hlen

/-- C3 witness: on a one-row table, upserting a fresh key inserts and the
inserted record is then found with exactly the supplied fields merged
with `None` defaults; upserting the existing key updates row 0 in place,
field-wise supplied-or-old. -/
theorem upsert_insert_update_spec_witness :
    (upsert_row { headers := COLUMNS, rows := [raceRowA] } raceRecB =
        some (UpsertAction.inserted,
          { headers := COLUMNS,
            rows := [raceRowA] ++ [newRowFromData COLUMNS raceRecB] }) ∧
      find_row_by_key
        { headers := COLUMNS, rows := [raceRowA] ++ [newRowFromData COLUMNS raceRecB] }
        "IDX-2" "2026-01-06" =
        some (COLUMNS.map (fun c => (c, dictGetCell raceRecB c))))
    ∧ (upsert_row { headers := COLUMNS, rows := [raceRowA] } raceRecA =
        some (UpsertAction.updated,
          { headers := COLUMNS,
            rows := [raceRowA].set 0
              (updateRowCells COLUMNS ([raceRowA].getD 0 []) raceRecA) }) ∧
        ∀ c p, pyIndex COLUMNS c = some p →
          (updateRowCells COLUMNS ([raceRowA].getD 0 []) raceRecA).getD p Cell.none =
            (lookupCell raceRecA c).getD
              (([raceRowA].getD 0 []).getD p Cell.none)) := by
  constructor
  · exact (upsert_insert_update_spec { headers := COLUMNS, rows := [raceRowA] }
      raceRecB "IDX-2" "2026-01-06" rfl (by decide) (by decide) (by decide)
      (by decide)).1 (by decide)
  · exact (upsert_insert_update_spec { headers := COLUMNS, rows := [raceRowA] }
      raceRecA "IDX-1" "2026-01-05" rfl (by decide) (by decide) (by decide)
      (by decide)).2 0 (by decide)

/-- C6.  Upsert idempotence: starting from a well-formed table not
containing the composite key, upserting the same partial record twice
yields `inserted` then `updated`, and afterwards the table holds exactly
one row matching that key. -/
theorem upsert_twice_idempotent
    (s : Sheet) (d : List (String × Cell)) (a b : String)
    (hh : s.headers = COLUMNS)
    (hwf : ∀ r ∈ s.rows, WFRow r)
    (hnd : (d.map Prod.fst).Nodup)
    (hia : lookupCell d "index_number" = some (Cell.str a))
    (hda : lookupCell d "appearance_date" = some (Cell.str b))
    (hfresh : _match_key s a b = some Option.none) :
    ∃ s1 s2,
      upsert_row s d = some (UpsertAction.inserted, s1) ∧
      upsert_row s1 d = some (UpsertAction.updated, s2) ∧
      matchingRowCount s2 a b = 1 := by
  obtain ⟨H, R⟩ := s
  dsimp only at hh hwf ⊢
  subst hh
  have hida : dictGetStr d "index_number" = a := by
    unfold dictGetStr
    rw [hia]
    rfl
  have hdab : dictGetStr d "appearance_date" = b := by
    unfold dictGetStr
    rw [hda]
    rfl
  have hpi2 : pyIndex COLUMNS "index_number" = some 2 := by decide
  have hpi0 : pyIndex COLUMNS "appearance_date" = some 0 := by decide
  have hmk : _match_key ⟨COLUMNS, R⟩ a b =
      some (findIdxFrom (rowMatchesKey 2 0 (pyLower (pyStrip a)) b) R) := by
    unfold _match_key
    dsimp only
    rw [hpi2, hpi0]
  rw [hmk] at hfresh
  have hnone : findIdxFrom (rowMatchesKey 2 0 (pyLower (pyStrip a)) b) R =
      Option.none := Option.some.inj hfresh
  have hall : ∀ r ∈ R, rowMatchesKey 2 0 (pyLower (pyStrip a)) b r = false :=
    findIdxFrom_eq_none.mp hnone
  have hN2 : rowCell (newRowFromData COLUMNS d) 2 = Cell.str a := by
    rw [rowCell, newRowFromData_getD hpi2, dictGetCell, hia]
    rfl
  have hN0 : rowCell (newRowFromData COLUMNS d) 0 = Cell.str b := by
    rw [rowCell, newRowFromData_getD hpi0, dictGetCell, hda]
    rfl
  have hpredN : rowMatchesKey 2 0 (pyLower (pyStrip a)) b (newRowFromData COLUMNS d) =
      true := by
    unfold rowMatchesKey
    rw [hN2, hN0, pyOrEmptyStr_str, pyOrEmptyStr_str]
    simp
  have hup1 : upsert_row ⟨COLUMNS, R⟩ d = some (UpsertAction.inserted,
      { headers := COLUMNS, rows := R ++ [newRowFromData COLUMNS d] }) := by
    unfold upsert_row
    dsimp only
    rw [hida, hdab, hmk, hnone]
    rfl
  have hmk2 : _match_key ⟨COLUMNS, R ++ [newRowFromData COLUMNS d]⟩ a b =
      some (some R.length) := by
    unfold _match_key
    dsimp only
    rw [hpi2, hpi0]
    show some (findIdxFrom (rowMatchesKey 2 0 (pyLower (pyStrip a)) b)
      (R ++ [newRowFromData COLUMNS d])) = some (some R.length)
    rw [findIdxFrom_append_of_none hall]
    simp [findIdxFrom, hpredN]
  have hgetD : (R ++ [newRowFromData COLUMNS d]).getD R.length [] =
      newRowFromData COLUMNS d := by
    rw [List.getD_eq_getElem?_getD, List.getElem?_concat_length]
    rfl
  have hNlen : (newRowFromData COLUMNS d).length = COLUMNS.length := by
    unfold newRowFromData
    simp
  have hup2 : upsert_row ⟨COLUMNS, R ++ [newRowFromData COLUMNS d]⟩ d =
      some (UpsertAction.updated,
        { headers := COLUMNS,
          rows := (R ++ [newRowFromData COLUMNS d]).set R.length
            (updateRowCells COLUMNS
              ((R ++ [newRowFromData COLUMNS d]).getD R.length []) d) }) := by
    unfold upsert_row
    dsimp only
    rw [hida, hdab, hmk2]
    rfl
  have hset : (R ++ [newRowFromData COLUMNS d]).set R.length
      (updateRowCells COLUMNS
        ((R ++ [newRowFromData COLUMNS d]).getD R.length []) d) =
      R ++ [updateRowCells COLUMNS (newRowFromData COLUMNS d) d] := by
    rw [hgetD]
    rw [List.set_append_right _ _ (le_refl R.length)]
    simp
  have hr2idx : rowCell (updateRowCells COLUMNS (newRowFromData COLUMNS d) d) 2 =
      Cell.str a := by
    rw [rowCell]
    rw [updateRowCells_getD hnd (newRowFromData COLUMNS d) hpi2
      (by rw [hNlen]; decide)]
    rw [hia]
    rfl
  have hr2dat : rowCell (updateRowCells COLUMNS (newRowFromData COLUMNS d) d) 0 =
      Cell.str b := by
    rw [rowCell]
    rw [updateRowCells_getD hnd (newRowFromData COLUMNS d) hpi0
      (by rw [hNlen]; decide)]
    rw [hda]
    rfl
  have hpredr2 : rowMatchesKey 2 0 (pyLower (pyStrip a)) b
      (updateRowCells COLUMNS (newRowFromData COLUMNS d) d) = true := by
    unfold rowMatchesKey
    rw [hr2idx, hr2dat, pyOrEmptyStr_str, pyOrEmptyStr_str]
    simp
  refine ⟨{ headers := COLUMNS, rows := R ++ [newRowFromData COLUMNS d] },
    { headers := COLUMNS,
      rows := R ++ [updateRowCells COLUMNS (newRowFromData COLUMNS d) d] },
    hup1, ?_, ?_⟩
  · rw [hup2, hset]
  · unfold matchingRowCount
    dsimp only
    rw [hpi2, hpi0]
    show ((R ++ [updateRowCells COLUMNS (newRowFromData COLUMNS d) d]).filter
      (rowMatchesKey 2 0 (pyLower (pyStrip a)) b)).length = 1
    rw [List.filter_append]
    rw [List.filter_eq_nil_iff.mpr (by intro r hr; simp [hall r hr])]
    simp [hpredr2]

/-- C6 witness: on a fresh empty table, upserting the same record twice
gives `inserted` then `updated` and exactly one row for the key. -/
theorem upsert_twice_idempotent_witness :
    ∃ s1 s2,
      upsert_row emptySheet0 raceRecA = some (UpsertAction.inserted, s1) ∧
      upsert_row s1 raceRecA = some (UpsertAction.updated, s2) ∧
      matchingRowCount s2 "IDX-1" "2026-01-05" = 1 :=
  upsert_twice_idempotent emptySheet0 raceRecA "IDX-1" "2026-01-05" rfl
    (by decide) (by decide) (by decide) (by decide) (by decide)
